import Mathlib

/-!
Verification of the Twitter-Clone repository's feed query service
(`src/server/api/routers/tweet.ts`) and feed presentation / like-mutation
client (`src/components/InfiniteTweetList.tsx`), shallowly embedded in Lean.

Server side: the database is a plain record of tweet rows, user rows, like
pairs and follow pairs; `findMany` models the Prisma query issued by
`getInfiniteTweets` (orderBy `[{createdAt: desc}, {id: desc}]`, an inclusive
cursor on the compound key `createdAt_id`, `take`, and the select clause);
`toggleLike` models the toggle mutation; `infiniteFeed` and
`infiniteProfileFeed` model the two router procedures.

Client side: `updateData` models the `setInfiniteData` updater installed in
`TweetCard`'s `onSuccess`, and `onSuccessToggleLike` models its application
to the three cache slots. `renderInfiniteTweetList` models the control flow
of the `InfiniteTweetList` component.
-/

/-- A stored tweet row (the Prisma `Tweet` table, fields used by the router).
`createdAt` is modelled as a natural-number timestamp. -/
structure TweetRow where
  id : String
  content : String
  createdAt : Nat
  userId : String
deriving DecidableEq, Repr

/-- A stored user row (the fields selected by `getInfiniteTweets`). -/
structure UserRow where
  id : String
  name : Option String
  image : Option String
deriving DecidableEq, Repr

/-- The pagination cursor `{ id, createdAt }`. -/
structure Cursor where
  id : String
  createdAt : Nat
deriving DecidableEq, Repr

/-- The relational store. `likes` holds `(userId, tweetId)` pairs (the `Like`
table's composite key); `follows` holds `(followerId, followeeId)` pairs. -/
structure Db where
  tweets : List TweetRow
  users : List UserRow
  likes : List (String × String)
  follows : List (String × String)
deriving DecidableEq, Repr

/-- The two non-trivial `whereClause` shapes built by the router:
`{ userId }` for profile feeds and `{ user: { followers: { some: { id } } } }`
for the following-only feed. `none` at the call sites means no filter. -/
inductive WhereClause where
  | byUser (userId : String)
  | byFollowed (currentUserId : String)
deriving DecidableEq, Repr

/-- Evaluation of the optional `whereClause` on one tweet row. -/
def matchesWhere (db : Db) : Option WhereClause → TweetRow → Bool
  | none, _ => true
  | some (.byUser uid), t => t.userId == uid
  | some (.byFollowed cur), t => db.follows.contains (cur, t.userId)

/-- Lexicographic order on the characters of two strings, modelling the
storage engine's collation for the `id` column. -/
def strLt : List Char → List Char → Bool
  | [], [] => false
  | [], _ :: _ => true
  | _ :: _, [] => false
  | c1 :: l1, c2 :: l2 =>
    if c1.val < c2.val then true
    else if c2.val < c1.val then false
    else strLt l1 l2

/-- `a < b` in the id collation order. -/
def idLt (a b : String) : Bool :=
  strLt a.data b.data

/-- The sort order `orderBy: [{ createdAt: "desc" }, { id: "desc" }]`:
`a` sorts no later than `b`. -/
def tweetBefore (a b : TweetRow) : Prop :=
  b.createdAt < a.createdAt ∨
    (a.createdAt = b.createdAt ∧ (idLt b.id a.id = true ∨ a.id = b.id))

instance : DecidableRel tweetBefore := fun a b => by
  unfold tweetBefore
  exact inferInstance

/-- Prisma cursor semantics: `cursor: { createdAt_id: c }` (without `skip`)
positions the result at the cursor row inclusively, i.e. keeps exactly the
rows at or after the cursor's sort key in the descending order. -/
def atOrAfterCursor (c : Cursor) (t : TweetRow) : Bool :=
  decide (t.createdAt < c.createdAt) ||
    (t.createdAt == c.createdAt && (idLt t.id c.id || t.id == c.id))

/-- The `ctx.prisma.tweet.findMany` call of `getInfiniteTweets`: filter by the
optional `whereClause`, order by `createdAt` desc then `id` desc, position at
the optional inclusive cursor, and take `takeN` rows. -/
def findMany (db : Db) (whereClause : Option WhereClause)
    (cursor : Option Cursor) (takeN : Nat) : List TweetRow :=
  let sorted := List.insertionSort tweetBefore
    (db.tweets.filter (matchesWhere db whereClause))
  let positioned :=
    match cursor with
    | none => sorted
    | some c => sorted.filter (atOrAfterCursor c)
  positioned.take takeN

/-- The tweet read projection returned to the client. -/
structure TweetProj where
  id : String
  content : String
  createdAt : Nat
  likeCount : Nat
  user : Option UserRow
  likedByMe : Bool
deriving DecidableEq, Repr

/-- A throwaway default used with `List.getD` in indexed statements. -/
def defaultProj : TweetProj :=
  { id := "", content := "", createdAt := 0, likeCount := 0,
    user := none, likedByMe := false }

/-- The per-row mapping at the end of `getInfiniteTweets`: `likeCount` is
`_count.Likes`; the viewer-filtered `Likes` relation is absent (select
`false`) when there is no session, so `tweet.Likes?.length > 0` is false; the
`user` subset is joined by the row's `userId`. -/
def project (db : Db) (viewer : Option String) (t : TweetRow) : TweetProj :=
  let viewerLikes : Option (List (String × String)) :=
    match viewer with
    | none => none
    | some uid => some (db.likes.filter (fun l => l.1 == uid && l.2 == t.id))
  { id := t.id
    content := t.content
    createdAt := t.createdAt
    likeCount := (db.likes.filter (fun l => l.2 == t.id)).length
    user := db.users.find? (fun u => u.id == t.userId)
    likedByMe :=
      match viewerLikes with
      | none => false
      | some ls => decide (0 < ls.length) }

/-- The `{ tweets, nextCursor }` response of `getInfiniteTweets`. -/
structure FeedPage where
  tweets : List TweetProj
  nextCursor : Option Cursor
deriving DecidableEq, Repr

/-- `getInfiniteTweets`: fetch `limit + 1` rows; when more than `limit` rows
come back, `data.pop()` removes the last one and its `(id, createdAt)`
becomes `nextCursor`; finally `data` is mapped to the read projection. -/
def getInfiniteTweets (db : Db) (whereClause : Option WhereClause)
    (limit : Nat) (cursor : Option Cursor) (viewer : Option String) :
    FeedPage :=
  let data := findMany db whereClause cursor (limit + 1)
  if limit < data.length then
    match data.getLast? with
    | some nextItem =>
        { tweets := data.dropLast.map (project db viewer)
          nextCursor := some { id := nextItem.id, createdAt := nextItem.createdAt } }
    | none => { tweets := data.map (project db viewer), nextCursor := none }
  else
    { tweets := data.map (project db viewer), nextCursor := none }

/-- The `infiniteFeed` procedure: an unfiltered feed unless the session user
is known and `onlyFollowing` is set, in which case the followed-authors
clause is used. -/
def infiniteFeed (db : Db) (onlyFollowing : Bool) (limit : Nat)
    (cursor : Option Cursor) (session : Option String) : FeedPage :=
  getInfiniteTweets db
    (match session, onlyFollowing with
      | none, _ => none
      | some _, false => none
      | some uid, true => some (WhereClause.byFollowed uid))
    limit cursor session

/-- The `infiniteProfileFeed` procedure: the feed filtered to one author. -/
def infiniteProfileFeed (db : Db) (userId : String) (limit : Nat)
    (cursor : Option Cursor) (session : Option String) : FeedPage :=
  getInfiniteTweets db (some (WhereClause.byUser userId)) limit cursor session

/-- `ctx.prisma.like.findUnique({ where: { userId_tweetId: data } })`. -/
def findUniqueLike (likes : List (String × String)) (userId tweetId : String) :
    Option (String × String) :=
  likes.find? (fun l => l == (userId, tweetId))

/-- The `toggleLike` mutation on the Like store: absent → create and report
`addedLike = true`; present → delete and report `addedLike = false`. -/
def toggleLike (likes : List (String × String)) (userId tweetId : String) :
    List (String × String) × Bool :=
  match findUniqueLike likes userId tweetId with
  | none => ((userId, tweetId) :: likes, true)
  | some _ => (likes.erase (userId, tweetId), false)

/-- The operations of the router that touch or read the store. -/
inductive Op where
  | createTweet (id content userId : String) (createdAt : Nat)
  | toggleLikeOp (userId tweetId : String)
  | listFeed (whereClause : Option WhereClause) (limit : Nat)
      (cursor : Option Cursor) (viewer : Option String)
deriving DecidableEq, Repr

/-- State transition of one operation: `create` appends a tweet row,
`toggleLike` rewrites the Like store, and feed queries read only. -/
def step (db : Db) : Op → Db
  | .createTweet i c u ts =>
      { db with tweets := db.tweets ++ [{ id := i, content := c, createdAt := ts, userId := u }] }
  | .toggleLikeOp u t => { db with likes := (toggleLike db.likes u t).1 }
  | .listFeed _ _ _ _ => db

/-- The core invariant: at most one Like row per `(userId, tweetId)` pair. -/
def LikesUnique (db : Db) : Prop :=
  ∀ p : String × String, db.likes.count p ≤ 1

/-- The user subset carried inside a cached client tweet. -/
structure CUser where
  id : String
  name : Option String
  image : Option String
deriving DecidableEq, Repr

/-- The client-side `Tweet` interface of `InfiniteTweetList.tsx`.
`likeCount` is a TS number, modelled as an integer. -/
structure CachedTweet where
  id : String
  content : String
  createdAt : Nat
  likeCount : Int
  likedByMe : Bool
  user : CUser
deriving DecidableEq, Repr

/-- One cached `FeedPage` as stored by the infinite query. -/
structure CPage where
  tweets : List CachedTweet
  nextCursor : Option Cursor
deriving DecidableEq, Repr

/-- The react-query `InfiniteData` shape: the fetched pages plus the page
parameters, both preserved by the object spread in the updater. -/
structure InfData where
  pages : List CPage
  pageParams : List (Option Cursor)
deriving DecidableEq, Repr

/-- `const countModifier = addedLike ? 1 : -1`. -/
def countModifier (addedLike : Bool) : Int :=
  if addedLike then 1 else -1

/-- The innermost arrow of the updater: the entry matching the toggled id has
its `likeCount` shifted and `likedByMe` set; other entries pass through. -/
def updateTweet (addedLike : Bool) (tweetId : String) (tweet : CachedTweet) :
    CachedTweet :=
  if tweet.id == tweetId then
    { tweet with
      likeCount := tweet.likeCount + countModifier addedLike
      likedByMe := addedLike }
  else tweet

/-- The per-page arrow of the updater: spread the page, map the tweets. -/
def updatePage (addedLike : Bool) (tweetId : String) (page : CPage) : CPage :=
  { page with tweets := page.tweets.map (updateTweet addedLike tweetId) }

/-- The `updateData` function passed to `setInfiniteData`: on `undefined`
cached data it returns `undefined` (no data is created); otherwise it spreads
the old data and maps every page. -/
def updateData (addedLike : Bool) (tweetId : String) :
    Option InfData → Option InfData
  | none => none
  | some oldData =>
      some { oldData with pages := oldData.pages.map (updatePage addedLike tweetId) }

/-- react-query `setInfiniteData` with a functional updater: when the updater
returns `undefined` the cache entry is left as it was. -/
def applySetInfiniteData (slot : Option InfData)
    (upd : Option InfData → Option InfData) : Option InfData :=
  match upd slot with
  | some d => some d
  | none => slot

/-- The client cache: one slot per query key — `infiniteFeed({})`,
`infiniteFeed({onlyFollowing: true})`, and `infiniteProfileFeed({userId})`
keyed by the user id. -/
structure ClientCache where
  infiniteFeedAll : Option InfData
  infiniteFeedOnlyFollowing : Option InfData
  infiniteProfileFeed : List (String × InfData)
deriving DecidableEq, Repr

/-- `setInfiniteData` on the profile-feed slot for `key`: entries under other
keys are untouched; an absent key stays absent (the updater sees `undefined`
for it only if the entry exists under that key, which it does not). -/
def setProfileData (key : String) (upd : Option InfData → Option InfData)
    (m : List (String × InfData)) : List (String × InfData) :=
  m.map fun e =>
    if e.1 == key then
      match upd (some e.2) with
      | some d => (e.1, d)
      | none => e
    else e

/-- The `onSuccess` handler of the `toggleLike` mutation in `TweetCard`: the
same updater is applied to the unfiltered feed slot, the following-only feed
slot, and the profile feed slot of the tweet's author. -/
def onSuccessToggleLike (cache : ClientCache) (tweetId authorId : String)
    (addedLike : Bool) : ClientCache :=
  let upd := updateData addedLike tweetId
  { infiniteFeedAll := applySetInfiniteData cache.infiniteFeedAll upd
    infiniteFeedOnlyFollowing :=
      applySetInfiniteData cache.infiniteFeedOnlyFollowing upd
    infiniteProfileFeed := setProfileData authorId upd cache.infiniteProfileFeed }

/-- What the `InfiniteTweetList` component can return to the renderer. -/
inductive Rendered where
  | nothing
  | noTweets
  | spinner
  | errorText
  | feedList (ids : List String) (hasMore : Bool)
deriving DecidableEq, Repr

/-- The control flow of `InfiniteTweetList`. The source's two leading guards
are `if (isLoading) {<LoadingSpinner />;}` and `if (isError) <h1>Error...</h1>;`
— in both, the element is an expression statement without `return`, so it is
built, discarded (the two local bindings below mirror that), and control
falls through to the tweet-list branches. -/
def renderInfiniteTweetList (isLoading : Bool) (isError : Option Bool)
    (hasMoreOpt : Option Bool) (tweets : Option (List CachedTweet)) :
    Rendered :=
  let hasMore := hasMoreOpt.getD false
  let _discardedSpinner := if isLoading then some Rendered.spinner else none
  let _discardedError := if isError.getD false then some Rendered.errorText else none
  match tweets with
  | none => Rendered.nothing
  | some ts =>
      if ts.length = 0 then Rendered.noTweets
      else Rendered.feedList (ts.map (fun t => t.id)) hasMore

theorem getD_mem_of_lt {α : Type _} (l : List α) (i : Nat) (hi : i < l.length)
    (d : α) : l.getD i d ∈ l := by
  rw [List.getD_eq_getElem?_getD, List.getElem?_eq_getElem hi]
  exact List.getElem_mem hi

theorem getD_map_of_lt {α β : Type _} (f : α → β) (l : List α) (i : Nat)
    (hi : i < l.length) (da : α) (db : β) :
    (l.map f).getD i db = f (l.getD i da) := by
  induction l generalizing i with
  | nil => simp at hi
  | cons a l ih =>
    cases i with
    | zero => rfl
    | succ n =>
      simp only [List.map_cons, List.getD_cons_succ]
      exact ih n (Nat.lt_of_succ_lt_succ hi)

theorem mem_getInfiniteTweets {db : Db} {wc : Option WhereClause}
    {limit : Nat} {cursor : Option Cursor} {viewer : Option String}
    {t : TweetProj}
    (ht : t ∈ (getInfiniteTweets db wc limit cursor viewer).tweets) :
    ∃ row ∈ findMany db wc cursor (limit + 1), t = project db viewer row := by
  simp only [getInfiniteTweets] at ht
  split at ht
  · split at ht
    · simp only [List.mem_map] at ht
      obtain ⟨row, hrow, hproj⟩ := ht
      exact ⟨row, List.dropLast_subset _ hrow, hproj.symm⟩
    · simp only [List.mem_map] at ht
      obtain ⟨row, hrow, hproj⟩ := ht
      exact ⟨row, hrow, hproj.symm⟩
  · simp only [List.mem_map] at ht
    obtain ⟨row, hrow, hproj⟩ := ht
    exact ⟨row, hrow, hproj.symm⟩

theorem mem_findMany_cursor {db : Db} {wc : Option WhereClause} {c : Cursor}
    {takeN : Nat} {row : TweetRow}
    (h : row ∈ findMany db wc (some c) takeN) :
    atOrAfterCursor c row = true := by
  simp only [findMany] at h
  exact (List.mem_filter.mp (List.take_subset _ _ h)).2

/-- Claim C1: `getInfiniteTweets` with limit `n` requests `n + 1` rows from
storage; when storage returns more than `n` rows the page is exactly the
first `n` rows and `nextCursor` is the `(id, createdAt)` of the removed
`(n+1)`-th row; when storage returns at most `n` rows the page is all of
them and `nextCursor` is absent. -/
theorem getInfiniteTweets_pagination (db : Db) (wc : Option WhereClause)
    (limit : Nat) (cursor : Option Cursor) (viewer : Option String) :
    ((findMany db wc cursor (limit + 1)).length ≤ limit →
      (getInfiniteTweets db wc limit cursor viewer).tweets
          = (findMany db wc cursor (limit + 1)).map (project db viewer) ∧
      (getInfiniteTweets db wc limit cursor viewer).nextCursor = none) ∧
    (limit < (findMany db wc cursor (limit + 1)).length →
      (getInfiniteTweets db wc limit cursor viewer).tweets
          = ((findMany db wc cursor (limit + 1)).take limit).map (project db viewer) ∧
      ∃ removed, (findMany db wc cursor (limit + 1)).getLast? = some removed ∧
        (getInfiniteTweets db wc limit cursor viewer).nextCursor
            = some { id := removed.id, createdAt := removed.createdAt }) := by
  constructor
  · intro h
    simp only [getInfiniteTweets]
    rw [if_neg (Nat.not_lt.mpr h)]
    exact ⟨rfl, rfl⟩
  · intro h
    have hle : (findMany db wc cursor (limit + 1)).length ≤ limit + 1 := by
      simp only [findMany]
      exact List.length_take_le _ _
    have hlen : (findMany db wc cursor (limit + 1)).length = limit + 1 := by omega
    have hne : findMany db wc cursor (limit + 1) ≠ [] := by
      intro hnil
      rw [hnil] at hlen
      simp at hlen
    obtain ⟨removed, hlast⟩ :=
      Option.isSome_iff_exists.mp (List.getLast?_isSome.mpr hne)
    refine ⟨?_, removed, hlast, ?_⟩
    · simp only [getInfiniteTweets]
      rw [if_pos h, hlast, List.dropLast_eq_take, hlen]
      simp
    · simp only [getInfiniteTweets]
      rw [if_pos h, hlast]

def dbW1 : Db :=
  { tweets := [{ id := "b", content := "x", createdAt := 2, userId := "u1" },
               { id := "a", content := "y", createdAt := 1, userId := "u1" }]
    users := []
    likes := []
    follows := [] }

theorem getInfiniteTweets_pagination_witness :
    ((getInfiniteTweets dbW1 none 1 none none).tweets
        = ((findMany dbW1 none none 2).take 1).map (project dbW1 none) ∧
      ∃ removed, (findMany dbW1 none none 2).getLast? = some removed ∧
        (getInfiniteTweets dbW1 none 1 none none).nextCursor
            = some { id := removed.id, createdAt := removed.createdAt }) ∧
    ((getInfiniteTweets dbW1 none 5 none none).tweets
        = (findMany dbW1 none none 6).map (project dbW1 none) ∧
      (getInfiniteTweets dbW1 none 5 none none).nextCursor = none) :=
  ⟨(getInfiniteTweets_pagination dbW1 none 1 none none).2 (by decide),
   (getInfiniteTweets_pagination dbW1 none 5 none none).1 (by decide)⟩

def dbC2 : Db :=
  { tweets := [{ id := "a", content := "hi", createdAt := 5, userId := "u1" }]
    users := []
    likes := []
    follows := [] }

/-- Claim C2, counterexample: with a single stored tweet whose sort key
equals the supplied cursor, `getInfiniteTweets` returns that very row — the
cursor row is included in the page, so the cursor is not an exclusive start
point. -/
theorem getInfiniteTweets_cursor_row_included :
    ((getInfiniteTweets dbC2 none 10 (some { id := "a", createdAt := 5 }) none).tweets.map
        (fun t => (t.id, t.createdAt))) = [("a", 5)] := by decide

/-- Claim C2 (amended): the cursor is an inclusive start point — every tweet
in the returned page is at or after the cursor's sort key in the sort order
(descending `createdAt`, then descending `id`): it has a strictly earlier
`createdAt`, or an equal `createdAt` with an `id` at most the cursor's. The
row whose `(createdAt, id)` equals the cursor may itself be returned (it is
the look-ahead row removed from the previous page, so consecutive pages
still do not overlap). -/
theorem getInfiniteTweets_cursor_inclusive (db : Db) (wc : Option WhereClause)
    (limit : Nat) (viewer : Option String) (c : Cursor) (d : TweetProj)
    (i : Nat)
    (hi : i < (getInfiniteTweets db wc limit (some c) viewer).tweets.length) :
    ((getInfiniteTweets db wc limit (some c) viewer).tweets.getD i d).createdAt
        < c.createdAt ∨
      (((getInfiniteTweets db wc limit (some c) viewer).tweets.getD i d).createdAt
          = c.createdAt ∧
        (idLt ((getInfiniteTweets db wc limit (some c) viewer).tweets.getD i d).id
            c.id = true ∨
          ((getInfiniteTweets db wc limit (some c) viewer).tweets.getD i d).id
            = c.id)) := by
  obtain ⟨row, hrow, hproj⟩ := mem_getInfiniteTweets (getD_mem_of_lt _ i hi d)
  have hb := mem_findMany_cursor hrow
  rw [hproj]
  simp only [atOrAfterCursor, Bool.or_eq_true, Bool.and_eq_true,
    decide_eq_true_eq, beq_iff_eq] at hb
  exact hb

def dbW2 : Db :=
  { tweets := [{ id := "a", content := "hi", createdAt := 5, userId := "u1" },
               { id := "b", content := "ho", createdAt := 7, userId := "u1" }]
    users := []
    likes := []
    follows := [] }

theorem getInfiniteTweets_cursor_inclusive_witness :
    ((getInfiniteTweets dbW2 none 10 (some { id := "a", createdAt := 5 }) none).tweets.getD 0 defaultProj).createdAt
        < 5 ∨
      (((getInfiniteTweets dbW2 none 10 (some { id := "a", createdAt := 5 }) none).tweets.getD 0 defaultProj).createdAt
          = 5 ∧
        (idLt ((getInfiniteTweets dbW2 none 10 (some { id := "a", createdAt := 5 }) none).tweets.getD 0 defaultProj).id
            "a" = true ∨
          ((getInfiniteTweets dbW2 none 10 (some { id := "a", createdAt := 5 }) none).tweets.getD 0 defaultProj).id
            = "a")) :=
  getInfiniteTweets_cursor_inclusive dbW2 none 10 none
    { id := "a", createdAt := 5 } defaultProj 0 (by decide)

/-- Claim C7: for every tweet of every page returned by the feed query,
`likedByMe` is true iff a viewer id was supplied and that viewer has a Like
on the tweet; with no viewer it is false for every returned tweet. -/
theorem getInfiniteTweets_likedByMe (db : Db) (wc : Option WhereClause)
    (limit : Nat) (cursor : Option Cursor) (viewer : Option String)
    (d : TweetProj) (i : Nat)
    (hi : i < (getInfiniteTweets db wc limit cursor viewer).tweets.length) :
    ((getInfiniteTweets db wc limit cursor viewer).tweets.getD i d).likedByMe
      = match viewer with
        | none => false
        | some v =>
            decide ((v, ((getInfiniteTweets db wc limit cursor viewer).tweets.getD i d).id)
              ∈ db.likes) := by
  obtain ⟨row, hrow, hproj⟩ := mem_getInfiniteTweets (getD_mem_of_lt _ i hi d)
  rw [hproj]
  cases viewer with
  | none => rfl
  | some v =>
    show decide (0 < (db.likes.filter (fun l => l.1 == v && l.2 == row.id)).length)
        = decide ((v, row.id) ∈ db.likes)
    rw [decide_eq_decide, ← List.countP_eq_length_filter, List.countP_pos_iff]
    constructor
    · rintro ⟨l, hl, hb⟩
      rw [Bool.and_eq_true, beq_iff_eq, beq_iff_eq] at hb
      have : l = (v, row.id) := Prod.ext hb.1 hb.2
      rw [← this]
      exact hl
    · intro hmem
      exact ⟨(v, row.id), hmem, by simp⟩

def dbW7 : Db :=
  { tweets := [{ id := "t1", content := "c", createdAt := 1, userId := "u1" }]
    users := []
    likes := [("v1", "t1")]
    follows := [] }

theorem getInfiniteTweets_likedByMe_witness :
    ((getInfiniteTweets dbW7 none 10 none (some "v1")).tweets.getD 0 defaultProj).likedByMe
        = decide (("v1", ((getInfiniteTweets dbW7 none 10 none (some "v1")).tweets.getD 0 defaultProj).id)
            ∈ dbW7.likes) ∧
    ((getInfiniteTweets dbW7 none 10 none (some "v1")).tweets.getD 0 defaultProj).likedByMe
        = true ∧
    ((getInfiniteTweets dbW7 none 10 none none).tweets.getD 0 defaultProj).likedByMe
        = false :=
  ⟨getInfiniteTweets_likedByMe dbW7 none 10 none (some "v1") defaultProj 0 (by decide),
   by decide, by decide⟩

/-- Claim C8: an `infiniteFeed` request with `onlyFollowing = true` from an
anonymous viewer degrades to no filter: the page equals the unfiltered
feed's page for the same cursor and limit. -/
theorem infiniteFeed_anonymous_onlyFollowing (db : Db) (limit : Nat)
    (cursor : Option Cursor) :
    infiniteFeed db true limit cursor none
        = getInfiniteTweets db none limit cursor none ∧
    infiniteFeed db true limit cursor none
        = infiniteFeed db false limit cursor none :=
  ⟨rfl, rfl⟩

theorem toggleLike_eq_of_not_mem {likes : List (String × String)}
    {u t : String} (h : (u, t) ∉ likes) :
    toggleLike likes u t = ((u, t) :: likes, true) := by
  unfold toggleLike findUniqueLike
  have hfind : likes.find? (fun l => l == (u, t)) = none := by
    rw [List.find?_eq_none]
    intro x hx hb
    exact h ((eq_of_beq hb) ▸ hx)
  rw [hfind]

theorem toggleLike_eq_of_mem {likes : List (String × String)}
    {u t : String} (h : (u, t) ∈ likes) :
    toggleLike likes u t = (likes.erase (u, t), false) := by
  unfold toggleLike findUniqueLike
  obtain ⟨x, hx⟩ := Option.isSome_iff_exists.mp
    ((@List.find?_isSome (String × String) likes (fun l => l == (u, t))).mpr
      ⟨(u, t), h, beq_self_eq_true _⟩)
  rw [hx]

/-- Claim C4: with no Like for the pair, `toggleLike` creates exactly that
Like and reports `addedLike = true`; with one present it deletes it and
reports `addedLike = false`; both prior states are handled in the normal
flow (the function is total) and no other pair's Likes are touched. -/
theorem toggleLike_result (likes : List (String × String)) (u t : String)
    (p : String × String) (hp : p ≠ (u, t)) :
    (likes.count (u, t) = 0 →
      (toggleLike likes u t).2 = true ∧
      (toggleLike likes u t).1.count (u, t) = 1) ∧
    (0 < likes.count (u, t) →
      (toggleLike likes u t).2 = false ∧
      (toggleLike likes u t).1.count (u, t) = likes.count (u, t) - 1) ∧
    (toggleLike likes u t).1.count p = likes.count p := by
  by_cases hmem : (u, t) ∈ likes
  · rw [toggleLike_eq_of_mem hmem]
    have hpos : 0 < likes.count (u, t) := List.count_pos_iff.mpr hmem
    refine ⟨fun h0 => absurd h0 (by omega), fun _ => ⟨rfl, ?_⟩, ?_⟩
    · rw [List.count_erase_self]
    · rw [List.count_erase_of_ne hp]
  · rw [toggleLike_eq_of_not_mem hmem]
    have h0 : likes.count (u, t) = 0 := List.count_eq_zero.mpr hmem
    refine ⟨fun _ => ⟨rfl, ?_⟩, fun hpos => absurd hpos (by omega), ?_⟩
    · rw [List.count_cons_self, h0]
    · rw [List.count_cons_of_ne hp]

theorem toggleLike_result_witness :
    ((toggleLike [] "u1" "t1").2 = true ∧
      (toggleLike [] "u1" "t1").1.count ("u1", "t1") = 1) ∧
    ((toggleLike [("u1", "t1")] "u1" "t1").2 = false ∧
      (toggleLike [("u1", "t1")] "u1" "t1").1.count ("u1", "t1")
          = [("u1", "t1")].count ("u1", "t1") - 1) ∧
    (toggleLike [("u1", "t1")] "u1" "t1").1.count ("u5", "t5")
        = [("u1", "t1")].count ("u5", "t5") := by
  have h1 := toggleLike_result [] "u1" "t1" ("u5", "t5") (by decide)
  have h2 := toggleLike_result [("u1", "t1")] "u1" "t1" ("u5", "t5") (by decide)
  exact ⟨h1.1 (by decide), h2.2.1 (by decide), h2.2.2⟩

/-- Claim C5: under the store's uniqueness constraint on `(userId, tweetId)`,
two consecutive `toggleLike` calls with no intervening writes restore the
Like state (as a set of rows), and the two `addedLike` results alternate. -/
theorem toggleLike_involutive (likes : List (String × String)) (u t : String)
    (p : String × String) (h : likes.count (u, t) ≤ 1) :
    (toggleLike (toggleLike likes u t).1 u t).2 = !(toggleLike likes u t).2 ∧
    (toggleLike (toggleLike likes u t).1 u t).1.count p = likes.count p := by
  by_cases hmem : (u, t) ∈ likes
  · rw [toggleLike_eq_of_mem hmem]
    have h1 : (likes.erase (u, t)).count (u, t) = 0 := by
      rw [List.count_erase_self]
      have := List.count_pos_iff.mpr hmem
      omega
    have hnot : (u, t) ∉ likes.erase (u, t) := List.count_eq_zero.mp h1
    rw [toggleLike_eq_of_not_mem hnot]
    refine ⟨rfl, ?_⟩
    by_cases hp : p = (u, t)
    · subst hp
      rw [List.count_cons_self, List.count_erase_self]
      have := List.count_pos_iff.mpr hmem
      omega
    · rw [List.count_cons_of_ne hp, List.count_erase_of_ne hp]
  · rw [toggleLike_eq_of_not_mem hmem]
    have hmem2 : (u, t) ∈ (u, t) :: likes := List.mem_cons_self _ _
    rw [toggleLike_eq_of_mem hmem2, List.erase_cons_head]
    exact ⟨rfl, rfl⟩

theorem toggleLike_involutive_witness :
    (toggleLike (toggleLike [("u1", "t1"), ("u2", "t1")] "u1" "t1").1 "u1" "t1").2
        = !(toggleLike [("u1", "t1"), ("u2", "t1")] "u1" "t1").2 ∧
    (toggleLike (toggleLike [("u1", "t1"), ("u2", "t1")] "u1" "t1").1 "u1" "t1").1.count ("u1", "t1")
        = [("u1", "t1"), ("u2", "t1")].count ("u1", "t1") :=
  toggleLike_involutive [("u1", "t1"), ("u2", "t1")] "u1" "t1" ("u1", "t1")
    (by decide)

theorem toggleLike_preserves_unique {likes : List (String × String)}
    (h : ∀ p : String × String, likes.count p ≤ 1) (u t : String) :
    ∀ p : String × String, (toggleLike likes u t).1.count p ≤ 1 := by
  intro p
  by_cases hmem : (u, t) ∈ likes
  · rw [toggleLike_eq_of_mem hmem]
    show (likes.erase (u, t)).count p ≤ 1
    have h1 := List.count_erase p (u, t) likes
    have h2 := h p
    omega
  · rw [toggleLike_eq_of_not_mem hmem]
    by_cases hp : p = (u, t)
    · subst hp
      rw [List.count_cons_self]
      have := List.count_eq_zero.mpr hmem
      omega
    · rw [List.count_cons_of_ne hp]
      exact h p

/-- Claim C6: every operation preserves the at-most-one-Like-per-pair
invariant — no sequence of router operations started from a store satisfying
it can reach a store with two Likes for one `(userId, tweetId)` pair. -/
theorem likesUnique_invariant (db : Db) (ops : List Op) (h : LikesUnique db) :
    LikesUnique (ops.foldl step db) := by
  induction ops generalizing db with
  | nil => exact h
  | cons op ops ih =>
    refine ih (step db op) ?_
    cases op with
    | createTweet i c u ts => exact h
    | toggleLikeOp u t => exact toggleLike_preserves_unique h u t
    | listFeed wc l cur v => exact h

def dbW6 : Db := { tweets := [], users := [], likes := [], follows := [] }

def opsW : List Op :=
  [Op.toggleLikeOp "u1" "t1", Op.createTweet "t2" "hi" "u1" 5,
   Op.toggleLikeOp "u1" "t1", Op.toggleLikeOp "u2" "t1",
   Op.listFeed none 10 none none]

theorem likesUnique_invariant_witness :
    ((opsW.foldl step dbW6).likes.count ("u2", "t1") ≤ 1) :=
  likesUnique_invariant dbW6 opsW (fun p => by simp [dbW6]) ("u2", "t1")

/-- One cached entry after the like update: a matching entry has its
`likeCount` shifted by `+1`/`-1` and `likedByMe` set to `addedLike`; an entry
for any other tweet is unchanged. -/
def entryLikeApplied (addedLike : Bool) (tweetId : String)
    (o n : CachedTweet) : Prop :=
  (o.id = tweetId →
      n.likeCount = o.likeCount + (if addedLike then (1 : Int) else -1) ∧
      n.likedByMe = addedLike) ∧
  (o.id ≠ tweetId → n = o)

/-- The like update applied pointwise to every page of a cached infinite
query: page count, per-page `nextCursor` and tweet count are preserved, and
each entry is related by `entryLikeApplied`. -/
def dataLikeApplied (addedLike : Bool) (tweetId : String)
    (old new : InfData) : Prop :=
  new.pages.length = old.pages.length ∧
  ∀ (dp : CPage) (i : Nat), i < old.pages.length →
    (new.pages.getD i dp).nextCursor = (old.pages.getD i dp).nextCursor ∧
    (new.pages.getD i dp).tweets.length = (old.pages.getD i dp).tweets.length ∧
    ∀ (dt : CachedTweet) (j : Nat), j < (old.pages.getD i dp).tweets.length →
      entryLikeApplied addedLike tweetId
        ((old.pages.getD i dp).tweets.getD j dt)
        ((new.pages.getD i dp).tweets.getD j dt)

/-- The like update applied to one optional cache slot: an unpopulated slot
stays unpopulated, a populated one is rewritten pointwise. -/
def slotLikeApplied (addedLike : Bool) (tweetId : String) :
    Option InfData → Option InfData → Prop
  | none, new => new = none
  | some old, new =>
      ∃ newD, new = some newD ∧ dataLikeApplied addedLike tweetId old newD

theorem entryLikeApplied_updateTweet (addedLike : Bool) (tweetId : String)
    (t : CachedTweet) :
    entryLikeApplied addedLike tweetId t (updateTweet addedLike tweetId t) := by
  unfold entryLikeApplied updateTweet countModifier
  by_cases h : t.id = tweetId
  · simp [h]
  · simp [h]

theorem dataLikeApplied_updateData (addedLike : Bool) (tweetId : String)
    (d : InfData) :
    dataLikeApplied addedLike tweetId d
      { d with pages := d.pages.map (updatePage addedLike tweetId) } := by
  refine ⟨by simp, ?_⟩
  intro dp i hi
  show (((d.pages.map (updatePage addedLike tweetId)).getD i dp)).nextCursor
      = (d.pages.getD i dp).nextCursor ∧ _
  rw [getD_map_of_lt (updatePage addedLike tweetId) d.pages i hi dp dp]
  refine ⟨rfl, by simp [updatePage], ?_⟩
  intro dt j hj
  show entryLikeApplied addedLike tweetId ((d.pages.getD i dp).tweets.getD j dt)
    (((d.pages.getD i dp).tweets.map (updateTweet addedLike tweetId)).getD j dt)
  rw [getD_map_of_lt (updateTweet addedLike tweetId) _ j hj dt dt]
  exact entryLikeApplied_updateTweet addedLike tweetId _

theorem slotLikeApplied_applySet (addedLike : Bool) (tweetId : String)
    (slot : Option InfData) :
    slotLikeApplied addedLike tweetId slot
      (applySetInfiniteData slot (updateData addedLike tweetId)) := by
  cases slot with
  | none => rfl
  | some d => exact ⟨_, rfl, dataLikeApplied_updateData addedLike tweetId d⟩

/-- Claim C3: after a successful `toggleLike`, the client applies the
returned `addedLike` — with no re-fetch — to the unfiltered feed slot, the
following-only feed slot, and the profile feed slot keyed by the tweet's
author: in every cached page of each populated slot the entry matching the
tweet id has `likeCount` shifted by `+1`/`-1` and `likedByMe` set to
`addedLike`, entries and slots not containing the tweet are unchanged, and
profile slots under other keys are untouched. -/
theorem toggleLike_crossCache (c : ClientCache) (tweetId authorId : String)
    (addedLike : Bool) :
    slotLikeApplied addedLike tweetId c.infiniteFeedAll
        (onSuccessToggleLike c tweetId authorId addedLike).infiniteFeedAll ∧
    slotLikeApplied addedLike tweetId c.infiniteFeedOnlyFollowing
        (onSuccessToggleLike c tweetId authorId addedLike).infiniteFeedOnlyFollowing ∧
    (onSuccessToggleLike c tweetId authorId addedLike).infiniteProfileFeed.length
        = c.infiniteProfileFeed.length ∧
    ∀ (de : String × InfData) (k : Nat), k < c.infiniteProfileFeed.length →
      ((onSuccessToggleLike c tweetId authorId addedLike).infiniteProfileFeed.getD k de).1
          = (c.infiniteProfileFeed.getD k de).1 ∧
      ((c.infiniteProfileFeed.getD k de).1 = authorId →
        dataLikeApplied addedLike tweetId
          (c.infiniteProfileFeed.getD k de).2
          ((onSuccessToggleLike c tweetId authorId addedLike).infiniteProfileFeed.getD k de).2) ∧
      ((c.infiniteProfileFeed.getD k de).1 ≠ authorId →
        (onSuccessToggleLike c tweetId authorId addedLike).infiniteProfileFeed.getD k de
          = c.infiniteProfileFeed.getD k de) := by
  refine ⟨slotLikeApplied_applySet addedLike tweetId _,
    slotLikeApplied_applySet addedLike tweetId _, by simp [onSuccessToggleLike, setProfileData], ?_⟩
  intro de k hk
  have hrepr : (onSuccessToggleLike c tweetId authorId addedLike).infiniteProfileFeed
      = c.infiniteProfileFeed.map (fun e =>
          if e.1 == authorId then
            match updateData addedLike tweetId (some e.2) with
            | some d2 => (e.1, d2)
            | none => e
          else e) := rfl
  rw [hrepr, getD_map_of_lt _ c.infiniteProfileFeed k hk de de]
  by_cases h : (c.infiniteProfileFeed.getD k de).1 = authorId
  · rw [if_pos (beq_iff_eq.mpr h)]
    exact ⟨rfl, fun _ => dataLikeApplied_updateData addedLike tweetId _,
      fun hne => absurd h hne⟩
  · rw [if_neg (fun hb => h (beq_iff_eq.mp hb))]
    exact ⟨rfl, fun he => absurd he h, fun _ => rfl⟩

def ctW1 : CachedTweet :=
  { id := "t1", content := "a", createdAt := 1, likeCount := 3,
    likedByMe := false, user := { id := "a1", name := some "N", image := none } }

def ctW2 : CachedTweet :=
  { id := "t2", content := "b", createdAt := 2, likeCount := 0,
    likedByMe := true, user := { id := "b1", name := none, image := some "i" } }

def pgW : CPage :=
  { tweets := [ctW1, ctW2], nextCursor := some { id := "x", createdAt := 3 } }

def dW : InfData := { pages := [pgW], pageParams := [none] }

def cW : ClientCache :=
  { infiniteFeedAll := some dW
    infiniteFeedOnlyFollowing := none
    infiniteProfileFeed := [("a1", dW), ("b1", dW)] }

theorem toggleLike_crossCache_witness :
    slotLikeApplied true "t1" (some dW)
        (onSuccessToggleLike cW "t1" "a1" true).infiniteFeedAll ∧
    slotLikeApplied true "t1" none
        (onSuccessToggleLike cW "t1" "a1" true).infiniteFeedOnlyFollowing ∧
    dataLikeApplied true "t1" dW
        ((onSuccessToggleLike cW "t1" "a1" true).infiniteProfileFeed.getD 0 ("", dW)).2 ∧
    (onSuccessToggleLike cW "t1" "a1" true).infiniteProfileFeed.getD 1 ("", dW)
        = cW.infiniteProfileFeed.getD 1 ("", dW) := by
  have h := toggleLike_crossCache cW "t1" "a1" true
  refine ⟨h.1, h.2.1, ?_, ?_⟩
  · exact (h.2.2.2 ("", dW) 0 (by decide)).2.1 (by decide)
  · exact (h.2.2.2 ("", dW) 1 (by decide)).2.2 (by decide)

theorem updateTweet_frame (addedLike : Bool) (tweetId : String)
    (t : CachedTweet) :
    (updateTweet addedLike tweetId t).id = t.id ∧
    (updateTweet addedLike tweetId t).content = t.content ∧
    (updateTweet addedLike tweetId t).createdAt = t.createdAt ∧
    (updateTweet addedLike tweetId t).user = t.user ∧
    (t.id ≠ tweetId → updateTweet addedLike tweetId t = t) := by
  unfold updateTweet
  by_cases h : t.id = tweetId
  · simp [h]
  · simp [h]

/-- Claim C10 (frame of the cross-cache like update): the updater applied to
any populated slot preserves the number of pages, the page parameters, each
page's `nextCursor`, the number and order of the tweets of each page, and
every field other than `likeCount` and `likedByMe` of every entry; entries
whose id differs from the toggled tweet's id are entirely unchanged; and a
slot whose stored data is absent stays unpopulated — the updater returns
`undefined` rather than creating data. -/
theorem updateData_frame (addedLike : Bool) (tweetId : String) :
    updateData addedLike tweetId none = none ∧
    applySetInfiniteData none (updateData addedLike tweetId) = none ∧
    ∀ d : InfData, ∃ d2, updateData addedLike tweetId (some d) = some d2 ∧
      d2.pageParams = d.pageParams ∧
      d2.pages.length = d.pages.length ∧
      ∀ (dp : CPage) (i : Nat), i < d.pages.length →
        (d2.pages.getD i dp).nextCursor = (d.pages.getD i dp).nextCursor ∧
        (d2.pages.getD i dp).tweets.length = (d.pages.getD i dp).tweets.length ∧
        ∀ (dt : CachedTweet) (j : Nat),
          j < (d.pages.getD i dp).tweets.length →
          ((d2.pages.getD i dp).tweets.getD j dt).id
              = ((d.pages.getD i dp).tweets.getD j dt).id ∧
          ((d2.pages.getD i dp).tweets.getD j dt).content
              = ((d.pages.getD i dp).tweets.getD j dt).content ∧
          ((d2.pages.getD i dp).tweets.getD j dt).createdAt
              = ((d.pages.getD i dp).tweets.getD j dt).createdAt ∧
          ((d2.pages.getD i dp).tweets.getD j dt).user
              = ((d.pages.getD i dp).tweets.getD j dt).user ∧
          (((d.pages.getD i dp).tweets.getD j dt).id ≠ tweetId →
            (d2.pages.getD i dp).tweets.getD j dt
              = (d.pages.getD i dp).tweets.getD j dt) := by
  refine ⟨rfl, rfl, ?_⟩
  intro d
  refine ⟨{ d with pages := d.pages.map (updatePage addedLike tweetId) }, rfl,
    rfl, by simp, ?_⟩
  intro dp i hi
  show ((d.pages.map (updatePage addedLike tweetId)).getD i dp).nextCursor
      = (d.pages.getD i dp).nextCursor ∧ _
  rw [getD_map_of_lt (updatePage addedLike tweetId) d.pages i hi dp dp]
  refine ⟨rfl, by simp [updatePage], ?_⟩
  intro dt j hj
  have hrw : (updatePage addedLike tweetId (d.pages.getD i dp)).tweets
      = (d.pages.getD i dp).tweets.map (updateTweet addedLike tweetId) := rfl
  rw [hrw, getD_map_of_lt (updateTweet addedLike tweetId) _ j hj dt dt]
  exact updateTweet_frame addedLike tweetId _

theorem updateData_frame_witness :
    updateData true "t1" none = none ∧
    ∃ d2, updateData true "t1" (some dW) = some d2 ∧
      d2.pageParams = dW.pageParams ∧
      d2.pages.length = dW.pages.length ∧
      (d2.pages.getD 0 pgW).nextCursor = (dW.pages.getD 0 pgW).nextCursor ∧
      (d2.pages.getD 0 pgW).tweets.getD 1 ctW1
          = (dW.pages.getD 0 pgW).tweets.getD 1 ctW1 := by
  obtain ⟨d2, h1, h2, h3, h4⟩ := (updateData_frame true "t1").2.2 dW
  refine ⟨(updateData_frame true "t1").1, d2, h1, h2, h3,
    (h4 pgW 0 (by decide)).1, ?_⟩
  exact ((h4 pgW 0 (by decide)).2.2 ctW1 1 (by decide)).2.2.2.2 (by decide)

/-- Claim C9 fails on the code: the component's loading and error guards
build their JSX elements as expression statements without `return`, so
neither indicator is ever part of the component's return value. At the
failing input `isLoading = true` with a present, empty tweets list the
component renders the "No Tweets" empty state instead of the loading
indicator (and with `tweets` undefined it renders nothing); no input makes
it render the spinner or the error text. The empty-state clause itself
holds: "No Tweets" is rendered exactly when the tweets list is present and
empty. -/
theorem renderInfiniteTweetList_indicators_bug :
    renderInfiniteTweetList true none none (some []) = Rendered.noTweets ∧
    renderInfiniteTweetList true none none none = Rendered.nothing ∧
    renderInfiniteTweetList false (some true) (some true) (some [])
        = Rendered.noTweets ∧
    (∀ (il : Bool) (ie ho : Option Bool) (ts : Option (List CachedTweet)),
      renderInfiniteTweetList il ie ho ts ≠ Rendered.spinner ∧
      renderInfiniteTweetList il ie ho ts ≠ Rendered.errorText) ∧
    (∀ (il : Bool) (ie ho : Option Bool) (ts : Option (List CachedTweet)),
      renderInfiniteTweetList il ie ho ts = Rendered.noTweets ↔ ts = some []) := by
  refine ⟨rfl, rfl, rfl, ?_, ?_⟩
  · intro il ie ho ts
    cases ts with
    | none => exact ⟨by simp [renderInfiniteTweetList], by simp [renderInfiniteTweetList]⟩
    | some l =>
      by_cases h : l.length = 0 <;>
        simp [renderInfiniteTweetList, h]
  · intro il ie ho ts
    cases ts with
    | none => simp [renderInfiniteTweetList]
    | some l =>
      by_cases h : l.length = 0
      · simp [renderInfiniteTweetList, h, List.length_eq_zero.mp h]
      · simp [renderInfiniteTweetList, h]
        intro hcontra
        exact absurd (by rw [hcontra]; rfl : l.length = 0) h
